import Mathlib

/-!
Shallow embedding of the trading-signal core in `src/lib/strategy.ts`
(moving-average calculator, signal evaluator, risk & position sizer,
order builder), together with theorems checking the natural-language
specification against it.

Modelling conventions:
* JavaScript numbers are modelled as exact rationals (`ℚ`); `toFixed(d)`
  followed by `Number(...)` is modelled by `roundFix d`, ECMAScript's
  round-half-towards-plus-infinity at `d` decimal places.
* A `number | null` entry is `Option ℚ`; `arr[i] ?? null` is `nthOrNull`.
* A thrown `Error` is `Except.error` carrying the message string.
* `Number.isFinite` is identically true on exact rationals, so the
  stop-loss/take-profit guards in the returned record always succeed.
-/

/-- `OHLCVRecord` from `src/lib/ccxtClient.ts`: one price bar. -/
structure OHLCVRecord where
  timestamp : ℚ
  open_ : ℚ
  high : ℚ
  low : ℚ
  close : ℚ
  volume : ℚ
  deriving Repr, DecidableEq

/-- `StrategyMode` from `src/lib/strategy.ts`. -/
inductive StrategyMode where
  | paper
  | live
  deriving Repr, DecidableEq

/-- `StrategyConfig` from `src/lib/strategy.ts`. -/
structure StrategyConfig where
  symbol : String
  timeframe : String
  fastLength : ℤ
  slowLength : ℤ
  capital : ℚ
  riskPercent : ℚ
  mode : StrategyMode
  deriving Repr, DecidableEq

/-- The `action` field's value space: `"buy" | "sell" | "hold"`. -/
inductive TradeAction where
  | buy
  | sell
  | hold
  deriving Repr, DecidableEq

/-- The `side` field's value space in `StrategyOrder`: `"buy" | "sell"`. -/
inductive Side where
  | buy
  | sell
  deriving Repr, DecidableEq

/-- The reason strings produced by `evaluateStrategy`, abstracted to their
five templates; the crossover templates carry the two interpolated
moving-average values. -/
inductive Reason where
  | bullishCrossover (fast slow : ℚ)
  | bearishCrossover (fast slow : ℚ)
  | contAbove
  | contBelow
  | noSignal
  deriving Repr, DecidableEq

/-- `StrategyComputation` from `src/lib/strategy.ts`. Optional fields are
`Option ℚ` (`none` = absent). -/
structure StrategyComputation where
  action : TradeAction
  reason : Reason
  latestPrice : ℚ
  positionSize : ℚ
  stopLoss : Option ℚ
  takeProfit : Option ℚ
  fastMA : List (Option ℚ)
  slowMA : List (Option ℚ)
  deriving Repr, DecidableEq

/-- `StrategyOrder` from `src/lib/strategy.ts` (the order intent). -/
structure StrategyOrder where
  side : Side
  type : String
  size : ℚ
  price : ℚ
  stopLoss : Option ℚ
  takeProfit : Option ℚ
  deriving Repr, DecidableEq

/-- ECMAScript `Number(x.toFixed (d))` on an exact value: round to `d`
decimal places, ties towards plus infinity (the ES spec picks the larger
candidate integer). -/
def roundFix (d : ℕ) (x : ℚ) : ℚ :=
  (round (x * 10 ^ d) : ℤ) / 10 ^ d

/-- `Array.prototype.slice(start, end)` for `0 ≤ start ≤ end`:
take `end` then drop `start`. -/
def jsSlice (l : List ℚ) (start stop : ℕ) : List ℚ :=
  (l.take stop).drop start

/-- `Array.prototype.slice(start)` with a possibly negative `start`
(negative counts from the end, clamped at 0). -/
def jsSliceFrom {α : Type} (l : List α) (start : ℤ) : List α :=
  if start < 0 then l.drop (l.length - (-start).toNat) else l.drop start.toNat

/-- `arr[i] ?? null` on a `(number | null)[]` with an `ℤ` index:
out-of-range (`undefined`) collapses to `null`, i.e. `none`. -/
def nthOrNull (l : List (Option ℚ)) (i : ℤ) : Option ℚ :=
  if i < 0 then none else (l.get? i.toNat).getD none

/-- `window.reduce((acc, value) => acc + value, 0)`. -/
def jsSum (l : List ℚ) : ℚ := l.foldl (· + ·) 0

/-- `Math.min(...)` over a spread nonempty array (the empty case, which
yields `Infinity` in JS, is unreachable in the strategy code). -/
def jsMin : List ℚ → ℚ
  | [] => 0
  | x :: xs => xs.foldl min x

/-- `Math.max(...)` over a spread nonempty array. -/
def jsMax : List ℚ → ℚ
  | [] => 0
  | x :: xs => xs.foldl max x

/-- The loop body of `simpleMovingAverage`: the output list produced once
the period guard has passed. -/
def smaList (values : List ℚ) (period : ℤ) : List (Option ℚ) :=
  (List.range values.length).map fun (i : ℕ) =>
    if (i : ℤ) + 1 < period then none
    else some (jsSum (jsSlice values (i + 1 - period.toNat) (i + 1)) / (period : ℚ))

/-- `simpleMovingAverage` from `src/lib/strategy.ts`: throws when
`period ≤ 0`, otherwise returns one entry per input value. -/
def simpleMovingAverage (values : List ℚ) (period : ℤ) :
    Except String (List (Option ℚ)) :=
  if period ≤ 0 then .error "SMA period must be greater than zero"
  else .ok (smaList values period)

/-- The signal-decision block of `evaluateStrategy` (lines 71–98 of
`src/lib/strategy.ts`): the mutable `action`/`reason` initialised to
hold/no-signal, then the nested if chain. -/
def crossSignal (lastFast lastSlow prevFast prevSlow : Option ℚ) :
    TradeAction × Reason :=
  match lastFast, lastSlow with
  | some lf, some ls =>
    match prevFast, prevSlow with
    | some pf, some ps =>
      if pf ≤ ps ∧ lf > ls then (.buy, .bullishCrossover lf ls)
      else if pf ≥ ps ∧ lf < ls then (.sell, .bearishCrossover lf ls)
      else if lf > ls then (.buy, .contAbove)
      else if lf < ls then (.sell, .contBelow)
      else (.hold, .noSignal)
    | _, _ =>
      if lf > ls then (.buy, .contAbove)
      else if lf < ls then (.sell, .contBelow)
      else (.hold, .noSignal)
  | _, _ => (.hold, .noSignal)

/-- The body of `evaluateStrategy` once all guards have passed (both SMA
calls returned): lines 60–131 of `src/lib/strategy.ts`. -/
def evalComp (candles : List OHLCVRecord) (config : StrategyConfig) :
    StrategyComputation :=
  let closes := candles.map OHLCVRecord.close
  let fastMA := smaList closes config.fastLength
  let slowMA := smaList closes config.slowLength
  let lastIndex := closes.length - 1
  let lastFast := (fastMA.get? lastIndex).getD none
  let lastSlow := (slowMA.get? lastIndex).getD none
  let prevFast := nthOrNull fastMA ((lastIndex : ℤ) - 1)
  let prevSlow := nthOrNull slowMA ((lastIndex : ℤ) - 1)
  let latestPrice := (closes.get? lastIndex).getD 0
  let sig := crossSignal lastFast lastSlow prevFast prevSlow
  let riskFraction := max (min (config.riskPercent / 100) 1) 0
  let capitalToUse := config.capital * riskFraction
  let positionSize :=
    if 0 < latestPrice then roundFix 6 (capitalToUse / latestPrice) else 0
  let recentLow := jsMin ((jsSliceFrom candles (-config.slowLength)).map OHLCVRecord.low)
  let recentHigh := jsMax ((jsSliceFrom candles (-config.slowLength)).map OHLCVRecord.high)
  let stopLoss :=
    if sig.1 = TradeAction.buy then roundFix 2 (recentLow * (99 / 100))
    else roundFix 2 (recentHigh * (101 / 100))
  let takeProfit :=
    if sig.1 = TradeAction.buy then roundFix 2 (latestPrice * (103 / 100))
    else roundFix 2 (latestPrice * (97 / 100))
  { action := sig.1
    reason := sig.2
    latestPrice := latestPrice
    positionSize := positionSize
    stopLoss := some stopLoss
    takeProfit := some takeProfit
    fastMA := fastMA
    slowMA := slowMA }

/-- `evaluateStrategy` from `src/lib/strategy.ts`. A thrown error from
`simpleMovingAverage` propagates (the `match` on `Except` models the
exception). `Number.isFinite` on the rounded stop/take values is
identically true over exact rationals, so both optional fields are
populated (see `evalComp`). -/
def evaluateStrategy (candles : List OHLCVRecord) (config : StrategyConfig) :
    Except String StrategyComputation :=
  if candles.length = 0 then
    .error "No OHLCV data available for strategy evaluation."
  else
    let closes := candles.map OHLCVRecord.close
    match simpleMovingAverage closes config.fastLength with
    | .error e => .error e
    | .ok _ =>
      match simpleMovingAverage closes config.slowLength with
      | .error e => .error e
      | .ok _ => .ok (evalComp candles config)

/-- `buildOrder` from `src/lib/strategy.ts`; the TypeScript guard narrows
`action` to `"buy" | "sell"` before building the order. -/
def buildOrder (computation : StrategyComputation) : Option StrategyOrder :=
  match computation.action with
  | .hold => none
  | .buy =>
    if computation.positionSize ≤ 0 then none
    else some
      { side := .buy
        type := "market"
        size := computation.positionSize
        price := computation.latestPrice
        stopLoss := computation.stopLoss
        takeProfit := computation.takeProfit }
  | .sell =>
    if computation.positionSize ≤ 0 then none
    else some
      { side := .sell
        type := "market"
        size := computation.positionSize
        price := computation.latestPrice
        stopLoss := computation.stopLoss
        takeProfit := computation.takeProfit }

/-- `Side` read back as an `TradeAction` (for comparing an order's side with the
computation's action). -/
def Side.toAction : Side → TradeAction
  | .buy => .buy
  | .sell => .sell

/-! ### Basic lemmas about the embedding -/

lemma evaluateStrategy_ok_iff (candles : List OHLCVRecord) (config : StrategyConfig)
    (comp : StrategyComputation) :
    evaluateStrategy candles config = .ok comp ↔
      candles.length ≠ 0 ∧ 0 < config.fastLength ∧ 0 < config.slowLength ∧
        comp = evalComp candles config := by
  unfold evaluateStrategy simpleMovingAverage
  by_cases h : candles.length = 0
  · simp [h]
  · by_cases hf : config.fastLength ≤ 0
    · simp [h, hf, not_lt.mpr hf]
    · by_cases hs : config.slowLength ≤ 0
      · simp [h, hf, hs, not_lt.mpr hs]
      · simp [h, hf, hs, not_le.mp hf, not_le.mp hs, eq_comm]

lemma evaluateStrategy_ok (candles : List OHLCVRecord) (config : StrategyConfig)
    (h : candles ≠ []) (hf : 0 < config.fastLength) (hs : 0 < config.slowLength) :
    evaluateStrategy candles config = .ok (evalComp candles config) :=
  (evaluateStrategy_ok_iff candles config _).mpr
    ⟨by simpa using h, hf, hs, rfl⟩

lemma roundFix_mono (d : ℕ) {x y : ℚ} (h : x ≤ y) : roundFix d x ≤ roundFix d y := by
  unfold roundFix
  have hp : (0 : ℚ) < 10 ^ d := by positivity
  have hr : round (x * 10 ^ d) ≤ round (y * 10 ^ d) := by
    rw [round_eq, round_eq]
    exact Int.floor_mono (by nlinarith)
  exact div_le_div_of_nonneg_right (by exact_mod_cast hr) hp.le

/-! ### The five-case signal policy as worded in the specification -/

/-- Spec case 1 guard: all four values defined, previous fast ≤ previous
slow, current fast > current slow. -/
def crossUpGuard (cf cs pf ps : Option ℚ) : Bool :=
  match cf, cs, pf, ps with
  | some f, some s, some f0, some s0 => decide (f0 ≤ s0) && decide (f > s)
  | _, _, _, _ => false

/-- Spec case 2 guard: all four values defined, previous fast ≥ previous
slow, current fast < current slow. -/
def crossDownGuard (cf cs pf ps : Option ℚ) : Bool :=
  match cf, cs, pf, ps with
  | some f, some s, some f0, some s0 => decide (f0 ≥ s0) && decide (f < s)
  | _, _, _, _ => false

/-- Spec case 3 guard: both current values defined and fast above slow. -/
def fastAboveGuard (cf cs : Option ℚ) : Bool :=
  match cf, cs with
  | some f, some s => decide (f > s)
  | _, _ => false

/-- Spec case 4 guard: both current values defined and fast below slow. -/
def fastBelowGuard (cf cs : Option ℚ) : Bool :=
  match cf, cs with
  | some f, some s => decide (f < s)
  | _, _ => false

/-- Modelled from the spec's wording (§4.2): the five-case decision policy
in priority order — bullish crossover, bearish crossover, continuation
above, continuation below, otherwise hold. -/
def specFiveCasePolicy (cf cs pf ps : Option ℚ) : TradeAction × Reason :=
  if crossUpGuard cf cs pf ps then (.buy, .bullishCrossover (cf.getD 0) (cs.getD 0))
  else if crossDownGuard cf cs pf ps then (.sell, .bearishCrossover (cf.getD 0) (cs.getD 0))
  else if fastAboveGuard cf cs then (.buy, .contAbove)
  else if fastBelowGuard cf cs then (.sell, .contBelow)
  else (.hold, .noSignal)

lemma crossSignal_eq_specFiveCasePolicy (cf cs pf ps : Option ℚ) :
    crossSignal cf cs pf ps = specFiveCasePolicy cf cs pf ps := by
  rcases cf with _ | f <;> rcases cs with _ | s <;> rcases pf with _ | f0 <;>
    rcases ps with _ | s0 <;>
    simp only [crossSignal, specFiveCasePolicy, crossUpGuard, crossDownGuard,
      fastAboveGuard, fastBelowGuard, Bool.and_eq_true, decide_eq_true_eq,
      Option.getD_some] <;>
    split_ifs <;> simp_all <;> linarith

/-! ### Concrete fixtures used by witnesses and counterexamples -/

/-- A flat candle at price `p` (used as concrete input). -/
def mkCandle (p : ℚ) : OHLCVRecord :=
  { timestamp := 0, open_ := p, high := p, low := p, close := p, volume := 0 }

/-- Closes 5, 4, 3, 10: the fast (2) / slow (3) SMA relation flips from
fast ≤ slow to fast > slow at the last index. -/
def candlesC1 : List OHLCVRecord := [mkCandle 5, mkCandle 4, mkCandle 3, mkCandle 10]

/-- fastLength 2, slowLength 3, capital 100, riskPercent 10. -/
def configC1 : StrategyConfig :=
  { symbol := "BTC/USDT", timeframe := "1h", fastLength := 2, slowLength := 3,
    capital := 100, riskPercent := 10, mode := .paper }

/-- A config with a non-positive fast period. -/
def configBadPeriod : StrategyConfig :=
  { symbol := "BTC/USDT", timeframe := "1h", fastLength := 0, slowLength := 3,
    capital := 100, riskPercent := 10, mode := .paper }

/-! ### Claim theorems -/

/-- C1: for every non-empty candle sequence and config with positive
`fastLength` and `slowLength`, the action and reason returned by
`evaluateStrategy` equal the spec's five-case priority policy evaluated on
the current and previous fast/slow SMA values at the last index. -/
theorem evaluateStrategy_signal_policy (candles : List OHLCVRecord)
    (config : StrategyConfig) (h : candles ≠ [])
    (hf : 0 < config.fastLength) (hs : 0 < config.slowLength) :
    ∃ comp, evaluateStrategy candles config = .ok comp ∧
      (comp.action, comp.reason) =
        specFiveCasePolicy
          ((comp.fastMA.get? (candles.length - 1)).getD none)
          ((comp.slowMA.get? (candles.length - 1)).getD none)
          (nthOrNull comp.fastMA (((candles.length - 1 : ℕ) : ℤ) - 1))
          (nthOrNull comp.slowMA (((candles.length - 1 : ℕ) : ℤ) - 1)) := by
  refine ⟨evalComp candles config, evaluateStrategy_ok _ _ h hf hs, ?_⟩
  simp only [evalComp, List.length_map]
  rw [crossSignal_eq_specFiveCasePolicy]

/-- Witness for C1 at `candlesC1` / `configC1`. -/
theorem evaluateStrategy_signal_policy_witness :
    ∃ comp, evaluateStrategy candlesC1 configC1 = .ok comp ∧
      (comp.action, comp.reason) =
        specFiveCasePolicy
          ((comp.fastMA.get? (candlesC1.length - 1)).getD none)
          ((comp.slowMA.get? (candlesC1.length - 1)).getD none)
          (nthOrNull comp.fastMA (((candlesC1.length - 1 : ℕ) : ℤ) - 1))
          (nthOrNull comp.slowMA (((candlesC1.length - 1 : ℕ) : ℤ) - 1)) :=
  evaluateStrategy_signal_policy candlesC1 configC1 (by decide) (by decide) (by decide)

/-- C7: for every config, `evaluateStrategy` on an empty candle sequence
aborts with the no-data error and produces no computation. -/
theorem evaluateStrategy_empty (config : StrategyConfig) :
    evaluateStrategy [] config =
      .error "No OHLCV data available for strategy evaluation." := rfl

/-- C6: a non-positive moving-average period always fails with the
invalid-period error, and `evaluateStrategy` on a non-empty candle
sequence with a non-positive `fastLength` or `slowLength` aborts as a
single failure with that error (no partial computation). -/
theorem invalidPeriod_aborts (values : List ℚ) (P : ℤ) (candles : List OHLCVRecord)
    (config : StrategyConfig) (hP : P ≤ 0) (hc : candles ≠ [])
    (hcfg : config.fastLength ≤ 0 ∨ config.slowLength ≤ 0) :
    simpleMovingAverage values P = .error "SMA period must be greater than zero" ∧
      evaluateStrategy candles config =
        .error "SMA period must be greater than zero" := by
  constructor
  · simp [simpleMovingAverage, hP]
  · unfold evaluateStrategy simpleMovingAverage
    rw [if_neg (by simpa using hc)]
    rcases hcfg with hbad | hbad
    · simp [hbad]
    · by_cases hfst : config.fastLength ≤ 0
      · simp [hfst]
      · simp [hfst, hbad]

/-- Witness for C6 at period 0 and `configBadPeriod`. -/
theorem invalidPeriod_aborts_witness :
    simpleMovingAverage [1, 2, 3] 0 = .error "SMA period must be greater than zero" ∧
      evaluateStrategy candlesC1 configBadPeriod =
        .error "SMA period must be greater than zero" :=
  invalidPeriod_aborts [1, 2, 3] 0 candlesC1 configBadPeriod (by decide) (by decide)
    (Or.inl (by decide))

lemma smaList_length (values : List ℚ) (P : ℤ) :
    (smaList values P).length = values.length := by
  simp [smaList]

lemma smaList_get? (values : List ℚ) (P : ℤ) {i : ℕ} (hi : i < values.length) :
    (smaList values P).get? i =
      some (if (i : ℤ) + 1 < P then none
        else some (jsSum (jsSlice values (i + 1 - P.toNat) (i + 1)) / (P : ℚ))) := by
  simp [smaList, List.get?_eq_getElem?, List.getElem?_range, hi]

lemma evalComp_latestPrice (candles : List OHLCVRecord) (config : StrategyConfig) :
    (evalComp candles config).latestPrice =
      ((candles.map OHLCVRecord.close).get? (candles.length - 1)).getD 0 := by
  simp [evalComp]

lemma evalComp_positionSize (candles : List OHLCVRecord) (config : StrategyConfig) :
    (evalComp candles config).positionSize =
      if 0 < (evalComp candles config).latestPrice
      then roundFix 6 (config.capital * max (min (config.riskPercent / 100) 1) 0 /
        (evalComp candles config).latestPrice)
      else 0 := rfl

/-- C2: the moving-average output has the input's length, entries below
index P−1 are null, entries from P−1 on are the mean of the window of the
P values ending at that index; consequently `fastMA` and `slowMA` of every
returned computation have the candle sequence's length. -/
theorem simpleMovingAverage_spec (values : List ℚ) (P : ℤ)
    (h1 : 1 ≤ P) (h2 : P ≤ values.length) :
    (∃ r, simpleMovingAverage values P = .ok r ∧
      r.length = values.length ∧
      ∀ i, i < values.length →
        (((i : ℤ) < P - 1 → r.get? i = some none) ∧
         (P - 1 ≤ (i : ℤ) →
           r.get? i =
             some (some (((values.drop (i + 1 - P.toNat)).take P.toNat).sum / (P : ℚ))) ∧
           ((values.drop (i + 1 - P.toNat)).take P.toNat).length = P.toNat))) ∧
    (∀ candles config comp, evaluateStrategy candles config = .ok comp →
      comp.fastMA.length = candles.length ∧ comp.slowMA.length = candles.length) := by
  constructor
  · refine ⟨smaList values P, by simp [simpleMovingAverage]; omega, smaList_length .., ?_⟩
    intro i hi
    constructor
    · intro hlt
      rw [smaList_get? values P hi, if_pos (by omega)]
    · intro hge
      have hPle : P.toNat ≤ i + 1 := by omega
      have hslice : jsSlice values (i + 1 - P.toNat) (i + 1) =
          (values.drop (i + 1 - P.toNat)).take P.toNat := by
        rw [jsSlice, List.drop_take]
        congr 1
        omega
      refine ⟨?_, ?_⟩
      · rw [smaList_get? values P hi, if_neg (by omega), hslice, jsSum,
          ← List.sum_eq_foldl]
      · rw [List.length_take, List.length_drop]
        omega
  · intro candles config comp hok
    obtain ⟨-, -, -, hcomp⟩ := (evaluateStrategy_ok_iff candles config comp).mp hok
    subst hcomp
    constructor <;> simp [evalComp, smaList_length]

/-- Witness for C2 at values 1..5, period 3. -/
theorem simpleMovingAverage_spec_witness :
    (∃ r, simpleMovingAverage [1, 2, 3, 4, 5] 3 = .ok r ∧
      r.length = [(1 : ℚ), 2, 3, 4, 5].length ∧
      ∀ i, i < [(1 : ℚ), 2, 3, 4, 5].length →
        (((i : ℤ) < 3 - 1 → r.get? i = some none) ∧
         (3 - 1 ≤ (i : ℤ) →
           r.get? i =
             some (some ((([(1 : ℚ), 2, 3, 4, 5].drop (i + 1 - (3 : ℤ).toNat)).take
               (3 : ℤ).toNat).sum / ((3 : ℤ) : ℚ))) ∧
           (([(1 : ℚ), 2, 3, 4, 5].drop (i + 1 - (3 : ℤ).toNat)).take
             (3 : ℤ).toNat).length = (3 : ℤ).toNat))) ∧
    (∀ candles config comp, evaluateStrategy candles config = .ok comp →
      comp.fastMA.length = candles.length ∧ comp.slowMA.length = candles.length) :=
  simpleMovingAverage_spec [1, 2, 3, 4, 5] 3 (by decide) (by decide)

/-- C3: the returned position size is `capital * clamp(riskPercent/100,0,1)
/ latestPrice` rounded to 6 decimals when the latest close is positive, 0
when it is non-positive; riskPercent 150 and 100 give the same size. -/
theorem positionSize_formula (candles : List OHLCVRecord) (config : StrategyConfig)
    (h : candles ≠ []) (hf : 0 < config.fastLength) (hs : 0 < config.slowLength) :
    ∃ comp, evaluateStrategy candles config = .ok comp ∧
      (∀ c, candles.getLast? = some c → comp.latestPrice = c.close) ∧
      (0 < comp.latestPrice →
        comp.positionSize =
          roundFix 6 (config.capital * max (min (config.riskPercent / 100) 1) 0 /
            comp.latestPrice)) ∧
      (comp.latestPrice ≤ 0 → comp.positionSize = 0) ∧
      (∀ comp150 comp100,
        evaluateStrategy candles { config with riskPercent := 150 } = .ok comp150 →
        evaluateStrategy candles { config with riskPercent := 100 } = .ok comp100 →
        comp150.positionSize = comp100.positionSize) := by
  refine ⟨evalComp candles config, evaluateStrategy_ok _ _ h hf hs, ?_, ?_, ?_, ?_⟩
  · intro c hc
    rw [List.getLast?_eq_get?] at hc
    have hmap : (candles.map OHLCVRecord.close).get? (candles.length - 1) =
        (candles.get? (candles.length - 1)).map OHLCVRecord.close := by
      simp [List.get?_eq_getElem?]
    rw [evalComp_latestPrice, hmap, hc]
    rfl
  · intro hpos
    rw [evalComp_positionSize, if_pos hpos]
  · intro hnonpos
    rw [evalComp_positionSize, if_neg (not_lt.mpr hnonpos)]
  · intro comp150 comp100 h150 h100
    obtain ⟨-, -, -, e150⟩ := (evaluateStrategy_ok_iff _ _ _).mp h150
    obtain ⟨-, -, -, e100⟩ := (evaluateStrategy_ok_iff _ _ _).mp h100
    subst e150; subst e100
    simp only [evalComp_positionSize, evalComp_latestPrice]
    norm_num

/-- Witness for C3 at `candlesC1` / `configC1`. -/
theorem positionSize_formula_witness :
    ∃ comp, evaluateStrategy candlesC1 configC1 = .ok comp ∧
      (∀ c, candlesC1.getLast? = some c → comp.latestPrice = c.close) ∧
      (0 < comp.latestPrice →
        comp.positionSize =
          roundFix 6 (configC1.capital * max (min (configC1.riskPercent / 100) 1) 0 /
            comp.latestPrice)) ∧
      (comp.latestPrice ≤ 0 → comp.positionSize = 0) ∧
      (∀ comp150 comp100,
        evaluateStrategy candlesC1 { configC1 with riskPercent := 150 } = .ok comp150 →
        evaluateStrategy candlesC1 { configC1 with riskPercent := 100 } = .ok comp100 →
        comp150.positionSize = comp100.positionSize) :=
  positionSize_formula candlesC1 configC1 (by decide) (by decide) (by decide)

/-- C5: `buildOrder` returns no order exactly when the action is hold or
the position size is non-positive; otherwise the order's side matches the
action, its type is market, its size/price are the computation's position
size/latest price, and stop/take are carried through unchanged. -/
theorem buildOrder_contract (c : StrategyComputation) :
    (buildOrder c = none ↔ c.action = .hold ∨ c.positionSize ≤ 0) ∧
    ∀ o, buildOrder c = some o →
      o.side.toAction = c.action ∧ o.type = "market" ∧
      o.size = c.positionSize ∧ o.price = c.latestPrice ∧
      o.stopLoss = c.stopLoss ∧ o.takeProfit = c.takeProfit := by
  rcases hc : c.action <;>
    simp only [buildOrder, hc] <;>
    refine ⟨?_, ?_⟩ <;>
    first
      | simp
      | (split_ifs with hps <;> simp_all [Side.toAction])
      | (split_ifs with hps <;> simp_all [Side.toAction] <;> intro o ho <;> simp_all)
  all_goals exact fun _ => rfl

/-- Witness for C5 at a concrete buy computation with positive size. -/
theorem buildOrder_contract_witness :
    (buildOrder
        { action := .buy, reason := .contAbove, latestPrice := 2, positionSize := 5,
          stopLoss := some 1, takeProfit := none, fastMA := [], slowMA := [] } = none ↔
      StrategyComputation.action
          { action := .buy, reason := .contAbove, latestPrice := 2, positionSize := 5,
            stopLoss := some 1, takeProfit := none, fastMA := [], slowMA := [] } = .hold ∨
        StrategyComputation.positionSize
          { action := .buy, reason := .contAbove, latestPrice := 2, positionSize := 5,
            stopLoss := some 1, takeProfit := none, fastMA := [], slowMA := [] } ≤ 0) ∧
    ∀ o, buildOrder
        { action := .buy, reason := .contAbove, latestPrice := 2, positionSize := 5,
          stopLoss := some 1, takeProfit := none, fastMA := [], slowMA := [] } = some o →
      o.side.toAction = .buy ∧ o.type = "market" ∧
      o.size = 5 ∧ o.price = 2 ∧ o.stopLoss = some 1 ∧ o.takeProfit = none :=
  buildOrder_contract
    { action := .buy, reason := .contAbove, latestPrice := 2, positionSize := 5,
      stopLoss := some 1, takeProfit := none, fastMA := [], slowMA := [] }


/-- fastLength 2, slowLength 2 (both valid), capital 100, riskPercent 10. -/
def configTwo : StrategyConfig :=
  { symbol := "BTC/USDT", timeframe := "1h", fastLength := 2, slowLength := 2,
    capital := 100, riskPercent := 10, mode := .paper }

/-- fastLength 1, slowLength 1 (both valid), capital 100, riskPercent 10. -/
def configOne : StrategyConfig :=
  { symbol := "BTC/USDT", timeframe := "1h", fastLength := 1, slowLength := 1,
    capital := 100, riskPercent := 10, mode := .paper }

lemma evalComp_one_flat : evalComp [mkCandle 1] configTwo =
    { action := .hold, reason := .noSignal, latestPrice := 1, positionSize := 10,
      stopLoss := some (101 / 100), takeProfit := some (97 / 100),
      fastMA := [none], slowMA := [none] } := by
  simp [evalComp, configTwo, mkCandle, smaList, jsSlice, jsSum, nthOrNull, crossSignal,
    jsMin, jsMax, jsSliceFrom, roundFix, round_eq, List.range_succ]
  norm_num

lemma evalComp_negOne : evalComp [mkCandle (-1)] configOne =
    { action := .hold, reason := .noSignal, latestPrice := -1, positionSize := 0,
      stopLoss := some (-101 / 100), takeProfit := some (-97 / 100),
      fastMA := [some (-1)], slowMA := [some (-1)] } := by
  simp [evalComp, configOne, mkCandle, smaList, jsSlice, jsSum, nthOrNull, crossSignal,
    jsMin, jsMax, jsSliceFrom, roundFix, round_eq, List.range_succ]
  norm_num

lemma evalComp_posOne : evalComp [mkCandle 1] configOne =
    { action := .hold, reason := .noSignal, latestPrice := 1, positionSize := 10,
      stopLoss := some (101 / 100), takeProfit := some (97 / 100),
      fastMA := [some 1], slowMA := [some 1] } := by
  simp [evalComp, configOne, mkCandle, smaList, jsSlice, jsSum, nthOrNull, crossSignal,
    jsMin, jsMax, jsSliceFrom, roundFix, round_eq, List.range_succ]
  norm_num

/-- C4 counterexample: a single candle at price 1 with periods 2/2 yields
action hold, yet `stopLoss` and `takeProfit` are present in the returned
computation (the code computes them for every action and the finiteness
guard always passes on finite values). -/
theorem hold_stop_take_counterexample :
    ∃ comp, evaluateStrategy [mkCandle 1] configTwo = .ok comp ∧
      comp.action = .hold ∧ comp.stopLoss = some (101 / 100) ∧
      comp.takeProfit = some (97 / 100) := by
  refine ⟨evalComp [mkCandle 1] configTwo,
    evaluateStrategy_ok _ _ (by decide) (by decide) (by decide), ?_, ?_, ?_⟩ <;>
    rw [evalComp_one_flat]

/-- C4 (amended): whenever the action is hold, `stopLoss` and `takeProfit`
are present, computed from the non-buy branch: stop at the recent high
times 1.01, take at the latest price times 0.97, both rounded to 2
decimals. -/
theorem hold_stop_take_present (candles : List OHLCVRecord) (config : StrategyConfig)
    (h : candles ≠ []) (hf : 0 < config.fastLength) (hs : 0 < config.slowLength) :
    ∃ comp, evaluateStrategy candles config = .ok comp ∧
      (comp.action = .hold →
        comp.stopLoss = some (roundFix 2
          (jsMax ((jsSliceFrom candles (-config.slowLength)).map OHLCVRecord.high) *
            (101 / 100))) ∧
        comp.takeProfit = some (roundFix 2 (comp.latestPrice * (97 / 100)))) := by
  refine ⟨evalComp candles config, evaluateStrategy_ok _ _ h hf hs, ?_⟩
  intro hhold
  simp only [evalComp] at hhold ⊢
  rw [hhold]
  simp

/-- Witness for the amended C4 at the single flat candle. -/
theorem hold_stop_take_present_witness :
    ∃ comp, evaluateStrategy [mkCandle 1] configTwo = .ok comp ∧
      (comp.action = .hold →
        comp.stopLoss = some (roundFix 2
          (jsMax ((jsSliceFrom [mkCandle 1] (-configTwo.slowLength)).map OHLCVRecord.high) *
            (101 / 100))) ∧
        comp.takeProfit = some (roundFix 2 (comp.latestPrice * (97 / 100)))) :=
  hold_stop_take_present [mkCandle 1] configTwo (by decide) (by decide) (by decide)

/-- C8 counterexample: a single candle at price −1 (latest close ≤ 0)
yields position size 0 but `stopLoss` and `takeProfit` are present, not
omitted. -/
theorem nonpositive_price_counterexample :
    ∃ comp, evaluateStrategy [mkCandle (-1)] configOne = .ok comp ∧
      comp.latestPrice ≤ 0 ∧ comp.positionSize = 0 ∧
      comp.stopLoss = some (-101 / 100) ∧ comp.takeProfit = some (-97 / 100) := by
  refine ⟨evalComp [mkCandle (-1)] configOne,
    evaluateStrategy_ok _ _ (by decide) (by decide) (by decide), ?_, ?_, ?_, ?_⟩ <;>
    rw [evalComp_negOne] <;> norm_num

/-- C8 (amended): on a non-empty candle sequence with valid periods and a
non-positive latest close, `evaluateStrategy` does not fail: it returns a
computation with position size 0; `stopLoss` and `takeProfit` are still
present (the finiteness guard always passes on exact values), and being
exact rationals they are never NaN or Infinity. -/
theorem nonpositive_price_local (candles : List OHLCVRecord) (config : StrategyConfig)
    (h : candles ≠ []) (hf : 0 < config.fastLength) (hs : 0 < config.slowLength) :
    ∃ comp, evaluateStrategy candles config = .ok comp ∧
      (comp.latestPrice ≤ 0 →
        comp.positionSize = 0 ∧ comp.stopLoss.isSome ∧ comp.takeProfit.isSome) := by
  refine ⟨evalComp candles config, evaluateStrategy_ok _ _ h hf hs, ?_⟩
  intro hle
  refine ⟨?_, ?_, ?_⟩
  · rw [evalComp_positionSize, if_neg (not_lt.mpr hle)]
  · simp [evalComp]
  · simp [evalComp]

/-- Witness for the amended C8 at the single candle priced −1. -/
theorem nonpositive_price_local_witness :
    ∃ comp, evaluateStrategy [mkCandle (-1)] configOne = .ok comp ∧
      (comp.latestPrice ≤ 0 →
        comp.positionSize = 0 ∧ comp.stopLoss.isSome ∧ comp.takeProfit.isSome) :=
  nonpositive_price_local [mkCandle (-1)] configOne (by decide) (by decide) (by decide)

/-- C9 counterexample: with capital 100 and riskPercent 10, raising the
single candle's close from −1 to 1 raises the position size from 0 to 10,
so `positionSize` is not non-increasing in the latest price as claimed. -/
theorem positionSize_price_counterexample :
    ∃ lo hi, evaluateStrategy [mkCandle (-1)] configOne = .ok lo ∧
      evaluateStrategy [mkCandle 1] configOne = .ok hi ∧
      (mkCandle (-1)).close < (mkCandle 1).close ∧
      lo.positionSize < hi.positionSize := by
  refine ⟨_, _, evaluateStrategy_ok _ _ (by decide) (by decide) (by decide),
    evaluateStrategy_ok _ _ (by decide) (by decide) (by decide), ?_, ?_⟩
  · norm_num [mkCandle]
  · rw [evalComp_negOne, evalComp_posOne]
    norm_num

/-- C9 (amended): `positionSize` is non-decreasing in `capital`
unconditionally, non-decreasing in `riskPercent` when capital is
non-negative, and non-increasing in the latest close when capital is
non-negative and both compared closes are strictly positive (a
non-positive close forces size 0, which breaks anti-monotonicity across
the sign boundary). -/
theorem positionSize_monotonicity :
    (∀ (candles : List OHLCVRecord) (config : StrategyConfig) (cap1 cap2 : ℚ)
        comp1 comp2, cap1 ≤ cap2 →
      evaluateStrategy candles { config with capital := cap1 } = .ok comp1 →
      evaluateStrategy candles { config with capital := cap2 } = .ok comp2 →
      comp1.positionSize ≤ comp2.positionSize) ∧
    (∀ (candles : List OHLCVRecord) (config : StrategyConfig) (r1 r2 : ℚ)
        comp1 comp2, 0 ≤ config.capital → r1 ≤ r2 →
      evaluateStrategy candles { config with riskPercent := r1 } = .ok comp1 →
      evaluateStrategy candles { config with riskPercent := r2 } = .ok comp2 →
      comp1.positionSize ≤ comp2.positionSize) ∧
    (∀ (front : List OHLCVRecord) (c : OHLCVRecord) (p1 p2 : ℚ)
        (config : StrategyConfig) comp1 comp2,
      0 ≤ config.capital → 0 < p1 → p1 ≤ p2 →
      evaluateStrategy (front ++ [{ c with close := p1 }]) config = .ok comp1 →
      evaluateStrategy (front ++ [{ c with close := p2 }]) config = .ok comp2 →
      comp2.positionSize ≤ comp1.positionSize) := by
  have latest_concat : ∀ (front : List OHLCVRecord) (c : OHLCVRecord)
      (config : StrategyConfig) (p : ℚ),
      (evalComp (front ++ [{ c with close := p }]) config).latestPrice = p := by
    intro front c config p
    rw [evalComp_latestPrice]
    have hmap : (front ++ [{ c with close := p }]).map OHLCVRecord.close =
        front.map OHLCVRecord.close ++ [p] := by simp
    have hlen : (front ++ [{ c with close := p }]).length - 1 =
        (front.map OHLCVRecord.close).length := by simp
    rw [hmap, hlen, List.get?_concat_length]
    rfl
  refine ⟨?_, ?_, ?_⟩
  · intro candles config cap1 cap2 comp1 comp2 hcap h1 h2
    obtain ⟨-, -, -, e1⟩ := (evaluateStrategy_ok_iff _ _ _).mp h1
    obtain ⟨-, -, -, e2⟩ := (evaluateStrategy_ok_iff _ _ _).mp h2
    subst e1; subst e2
    simp only [evalComp_positionSize, evalComp_latestPrice]
    split_ifs with he
    · refine roundFix_mono 6 (div_le_div_of_nonneg_right ?_ (le_of_lt he))
      exact mul_le_mul_of_nonneg_right hcap (le_max_right _ _)
    · exact le_refl 0
  · intro candles config r1 r2 comp1 comp2 hcap hr h1 h2
    obtain ⟨-, -, -, e1⟩ := (evaluateStrategy_ok_iff _ _ _).mp h1
    obtain ⟨-, -, -, e2⟩ := (evaluateStrategy_ok_iff _ _ _).mp h2
    subst e1; subst e2
    simp only [evalComp_positionSize, evalComp_latestPrice]
    split_ifs with he
    · refine roundFix_mono 6 (div_le_div_of_nonneg_right ?_ (le_of_lt he))
      refine mul_le_mul_of_nonneg_left ?_ hcap
      exact max_le_max (min_le_min (by linarith) (le_refl 1)) (le_refl 0)
    · exact le_refl 0
  · intro front c p1 p2 config comp1 comp2 hcap hp1 hle h1 h2
    obtain ⟨-, -, -, e1⟩ := (evaluateStrategy_ok_iff _ _ _).mp h1
    obtain ⟨-, -, -, e2⟩ := (evaluateStrategy_ok_iff _ _ _).mp h2
    subst e1; subst e2
    simp only [evalComp_positionSize, latest_concat]
    rw [if_pos hp1, if_pos (lt_of_lt_of_le hp1 hle)]
    refine roundFix_mono 6 ?_
    have hx : (0 : ℚ) ≤ config.capital * max (min (config.riskPercent / 100) 1) 0 :=
      mul_nonneg hcap (le_max_right _ _)
    exact div_le_div_of_nonneg_left hx hp1 hle

/-- Witness for the amended C9: capital 50 versus 100 on the flat candle. -/
theorem positionSize_monotonicity_witness :
    (evalComp [mkCandle 1] { configOne with capital := 50 }).positionSize ≤
      (evalComp [mkCandle 1] { configOne with capital := 100 }).positionSize :=
  positionSize_monotonicity.1 [mkCandle 1] configOne 50 100 _ _ (by norm_num)
    (evaluateStrategy_ok _ _ (by decide) (by decide) (by decide))
    (evaluateStrategy_ok _ _ (by decide) (by decide) (by decide))

/-- C10: a strictly positive position size implies a strictly positive
latest close, and every order intent built from an evaluation result has
strictly positive size and price and a buy/sell side (never hold). -/
theorem orderIntent_invariants (candles : List OHLCVRecord) (config : StrategyConfig)
    (comp : StrategyComputation) (hok : evaluateStrategy candles config = .ok comp) :
    (0 < comp.positionSize → 0 < comp.latestPrice) ∧
    (∀ o, buildOrder comp = some o →
      0 < o.size ∧ 0 < o.price ∧ (o.side = Side.buy ∨ o.side = Side.sell)) := by
  obtain ⟨-, -, -, e⟩ := (evaluateStrategy_ok_iff _ _ _).mp hok
  subst e
  have hps : 0 < (evalComp candles config).positionSize →
      0 < (evalComp candles config).latestPrice := by
    intro hp
    by_contra hle
    rw [evalComp_positionSize, if_neg hle] at hp
    exact lt_irrefl 0 hp
  refine ⟨hps, ?_⟩
  intro o ho
  rcases ha : (evalComp candles config).action
  · simp only [buildOrder, ha] at ho
    split_ifs at ho with hq
    injection ho with ho
    subst ho
    exact ⟨not_le.mp hq, hps (not_le.mp hq), Or.inl rfl⟩
  · simp only [buildOrder, ha] at ho
    split_ifs at ho with hq
    injection ho with ho
    subst ho
    exact ⟨not_le.mp hq, hps (not_le.mp hq), Or.inr rfl⟩
  · simp only [buildOrder, ha] at ho
    exact absurd ho (by simp)

/-- Witness for C10 at the flat candle and unit periods. -/
theorem orderIntent_invariants_witness :
    (0 < (evalComp [mkCandle 1] configOne).positionSize →
      0 < (evalComp [mkCandle 1] configOne).latestPrice) ∧
    (∀ o, buildOrder (evalComp [mkCandle 1] configOne) = some o →
      0 < o.size ∧ 0 < o.price ∧ (o.side = Side.buy ∨ o.side = Side.sell)) :=
  orderIntent_invariants [mkCandle 1] configOne _
    (evaluateStrategy_ok _ _ (by decide) (by decide) (by decide))
